import Mathlib

/-!
Verification of the tdaq command/frame codec.

This file is a shallow embedding, in Lean 4, of the wire framing and command
codec of the go-daq/tdaq toolkit.  Bytes are modelled as natural numbers
(values below 256), byte strings as lists of naturals, and Go machine
integers as naturals with explicit reductions modulo powers of two.  Code
that can fail returns an explicit result type: a Go function that returns an
error is modelled with an `err` outcome, and a Go panic (array index out of
range, explicit panic call, negative make length) is modelled with a `crash`
outcome, so that "returns an error" and "panics" stay distinguishable.

The command-layer functions (`cmdTypeToPath`, `CmdFrom`, `Cmd.cmd`,
`SendCmd`, `recvCmd`, `JoinCmd`/`ConfigCmd` marshalling, `newConfigCmd`)
are translated from the repository source.  The frame codec
(`sendFrame`/`RecvFrame`), the encoder/decoder primitives, the `Port`
(end-point) record and the `StatusCmd` variant are not part of the source
tree at hand; they are modelled from the specification, as marked in their
doc comments.
-/

set_option maxRecDepth 8000

namespace Tdaq

/-- Outcome of running a piece of Go code: a normal value, a returned
error, or a runtime panic (`crash`). -/
inductive GoResult (α : Type) where
  | ok (a : α)
  | err (e : String)
  | crash (m : String)
  deriving DecidableEq

/-- True exactly on the `ok` outcome. -/
def GoResult.isOk {α : Type} : GoResult α → Bool
  | GoResult.ok _ => true
  | _ => false

/-- True exactly on the `err` outcome (an error value returned to the
caller, as opposed to a panic). -/
def GoResult.isErr {α : Type} : GoResult α → Bool
  | GoResult.err _ => true
  | _ => false

/-- True exactly on the `crash` outcome (a Go panic). -/
def GoResult.isCrash {α : Type} : GoResult α → Bool
  | GoResult.crash _ => true
  | _ => false

/-- Map a function over the `ok` outcome. -/
def GoResult.map {α β : Type} (f : α → β) : GoResult α → GoResult β
  | GoResult.ok a => GoResult.ok (f a)
  | GoResult.err e => GoResult.err e
  | GoResult.crash m => GoResult.crash m

/-- Little-endian byte decomposition of a natural number into `k` bytes,
least significant first. -/
def toLE : Nat → Nat → List Nat
  | 0, _ => []
  | k + 1, n => n % 256 :: toLE k (n / 256)

/-- Value of a little-endian byte list. -/
def fromLE : List Nat → Nat
  | [] => 0
  | b :: bs => b + 256 * fromLE bs

/-- Modelled from the spec: the decoder state of the frame codec.  The
decoder reads from a byte stream and accumulates the first error; after an
error every primitive becomes a no-op ("sticky" error, spec section 4.1). -/
structure Decoder where
  rest : List Nat
  err : Option String
  deriving DecidableEq

/-- Modelled from the spec: read one little-endian unsigned 64-bit integer.
Short reads surface an unexpected-EOF error; after an error the primitive
is a no-op returning zero. -/
def Decoder.ReadU64 (d : Decoder) : Nat × Decoder :=
  match d.err with
  | some _ => (0, d)
  | none =>
      if 8 ≤ d.rest.length then
        (fromLE (d.rest.take 8), Decoder.mk (d.rest.drop 8) none)
      else (0, Decoder.mk d.rest (some "unexpected EOF"))

/-- Modelled from the spec: read one byte. -/
def Decoder.ReadU8 (d : Decoder) : Nat × Decoder :=
  match d.err with
  | some _ => (0, d)
  | none =>
      match d.rest with
      | [] => (0, Decoder.mk [] (some "unexpected EOF"))
      | b :: bs => (b, Decoder.mk bs none)

/-- Modelled from the spec: read a string, which on the wire is a u64
length prefix followed by that many bytes (spec section 4.1). -/
def Decoder.ReadStr (d : Decoder) : List Nat × Decoder :=
  match d.ReadU64 with
  | (n, d1) =>
      match d1.err with
      | some _ => ([], d1)
      | none =>
          if n ≤ d1.rest.length then
            (d1.rest.take n, Decoder.mk (d1.rest.drop n) none)
          else ([], Decoder.mk d1.rest (some "unexpected EOF"))

/-- Modelled from the spec: write one little-endian unsigned 64-bit
integer.  The encoder writes into an in-memory buffer, so writes cannot
fail; the produced bytes are returned directly. -/
def WriteU64 (n : Nat) : List Nat := toLE 8 n

/-- Modelled from the spec: write one byte. -/
def WriteU8 (n : Nat) : List Nat := [n % 256]

/-- Modelled from the spec: write a string as a u64 length prefix followed
by the string's bytes. -/
def WriteStr (s : List Nat) : List Nat := WriteU64 s.length ++ s

/-- Modelled from the spec: an end-point (called `Port` by the command
code): a named, typed data sink/source with fields Name, Addr and Type
(spec section 3).  All three fields are byte strings. -/
structure Port where
  Name : List Nat
  Addr : List Nat
  Typ : List Nat
  deriving DecidableEq

/-- Bytes written for one port by the marshalling loops of `JoinCmd` and
`ConfigCmd`: name, address and type strings in order. -/
def marshalPort (p : Port) : List Nat :=
  WriteStr p.Name ++ (WriteStr p.Addr ++ WriteStr p.Typ)

/-- Bytes written for a port list by the marshalling loops. -/
def portsBytes (ps : List Port) : List Nat :=
  (ps.map marshalPort).flatten

/-- The port-reading loop shared by `JoinCmd.UnmarshalTDAQ` and
`ConfigCmd.UnmarshalTDAQ`: fill `n` ports, reading name, address and type
strings for each. -/
def readPorts : Nat → Decoder → List Port × Decoder
  | 0, d => ([], d)
  | k + 1, d =>
      let r1 := d.ReadStr
      let r2 := r1.2.ReadStr
      let r3 := r2.2.ReadStr
      let r4 := readPorts k r3.2
      (Port.mk r1.1 r2.1 r3.1 :: r4.1, r4.2)

/-- Well-formedness of a port in the embedding: each field's length fits
the u64 length prefix.  In Go this is automatic from slice bounds. -/
def wfPort (p : Port) : Prop :=
  p.Name.length < 2 ^ 64 ∧ p.Addr.length < 2 ^ 64 ∧ p.Typ.length < 2 ^ 64

instance (p : Port) : Decidable (wfPort p) := by
  unfold wfPort
  infer_instance

/-- The `/join` command payload, translated from the source:
`JoinCmd` carries a device name and its input and output end-point
lists. -/
structure JoinCmd where
  Name : List Nat
  InPorts : List Port
  OutPorts : List Port
  deriving DecidableEq

/-- Translated from the source: `JoinCmd.MarshalTDAQ` writes the name
string, then the input-port count as u64 followed by each input port's
name/address/type strings, then the same for output ports.  The encoder
writes into a fresh in-memory buffer, so the returned error is always
nil; the produced bytes are returned directly. -/
def JoinCmd.MarshalTDAQ (cmd : JoinCmd) : List Nat :=
  WriteStr cmd.Name ++
    (WriteU64 cmd.InPorts.length ++
      (portsBytes cmd.InPorts ++
        (WriteU64 cmd.OutPorts.length ++ portsBytes cmd.OutPorts)))

/-- Translated from the source: `JoinCmd.UnmarshalTDAQ` reads the name,
then a u64 count and that many input ports, then a u64 count and that
many output ports, and returns the decoder's sticky error at the end.
The Go source converts each u64 count to `int` and allocates a slice of
that length; a count of `2^63` or more becomes a negative `int`, and
`make` with a negative length panics, modelled by the `crash` outcome. -/
def JoinCmd.UnmarshalTDAQ (p : List Nat) : GoResult JoinCmd :=
  let r1 := Decoder.ReadStr (Decoder.mk p none)
  let r2 := r1.2.ReadU64
  if 2 ^ 63 ≤ r2.1 then
    GoResult.crash "runtime error: makeslice: len out of range"
  else
    let r3 := readPorts r2.1 r2.2
    let r4 := r3.2.ReadU64
    if 2 ^ 63 ≤ r4.1 then
      GoResult.crash "runtime error: makeslice: len out of range"
    else
      let r5 := readPorts r4.1 r4.2
      match r5.2.err with
      | some e => GoResult.err e
      | none => GoResult.ok (JoinCmd.mk r1.1 r3.1 r5.1)

/-- The `/config` command payload, translated from the source: the same
shape as `JoinCmd`. -/
structure ConfigCmd where
  Name : List Nat
  InPorts : List Port
  OutPorts : List Port
  deriving DecidableEq

/-- Translated from the source: `ConfigCmd.MarshalTDAQ`, textually the
same marshalling code as `JoinCmd.MarshalTDAQ`. -/
def ConfigCmd.MarshalTDAQ (cmd : ConfigCmd) : List Nat :=
  WriteStr cmd.Name ++
    (WriteU64 cmd.InPorts.length ++
      (portsBytes cmd.InPorts ++
        (WriteU64 cmd.OutPorts.length ++ portsBytes cmd.OutPorts)))

/-- Translated from the source: `ConfigCmd.UnmarshalTDAQ`, textually the
same unmarshalling code as `JoinCmd.UnmarshalTDAQ`. -/
def ConfigCmd.UnmarshalTDAQ (p : List Nat) : GoResult ConfigCmd :=
  let r1 := Decoder.ReadStr (Decoder.mk p none)
  let r2 := r1.2.ReadU64
  if 2 ^ 63 ≤ r2.1 then
    GoResult.crash "runtime error: makeslice: len out of range"
  else
    let r3 := readPorts r2.1 r2.2
    let r4 := r3.2.ReadU64
    if 2 ^ 63 ≤ r4.1 then
      GoResult.crash "runtime error: makeslice: len out of range"
    else
      let r5 := readPorts r4.1 r4.2
      match r5.2.err with
      | some e => GoResult.err e
      | none => GoResult.ok (ConfigCmd.mk r1.1 r3.1 r5.1)

/-- Modelled from the spec: the `/status` command payload carries a
device name and an FSM state (spec section 4.2); the state is one of
seven values and is serialized as a single byte with the frame
primitives. -/
structure StatusCmd where
  Name : List Nat
  Status : Nat
  deriving DecidableEq

/-- Modelled from the spec: `StatusCmd` marshals its name string followed
by the FSM state byte. -/
def StatusCmd.MarshalTDAQ (cmd : StatusCmd) : List Nat :=
  WriteStr cmd.Name ++ WriteU8 cmd.Status

/-- Modelled from the spec: `StatusCmd` unmarshals a name string followed
by the FSM state byte, returning the decoder's sticky error at the end. -/
def StatusCmd.UnmarshalTDAQ (p : List Nat) : GoResult StatusCmd :=
  let r1 := Decoder.ReadStr (Decoder.mk p none)
  let r2 := r1.2.ReadU8
  match r2.2.err with
  | some e => GoResult.err e
  | none => GoResult.ok (StatusCmd.mk r1.1 r2.1)

/-- Well-formedness of a `JoinCmd` in the embedding: the name and every
port field fit the u64 string-length prefix, and the port counts fit a
non-negative Go `int`.  In Go all of these hold for every value of the
type. -/
def wfJoin (c : JoinCmd) : Prop :=
  c.Name.length < 2 ^ 64 ∧ c.InPorts.length < 2 ^ 63 ∧
    c.OutPorts.length < 2 ^ 63 ∧
    (∀ p ∈ c.InPorts, wfPort p) ∧ (∀ p ∈ c.OutPorts, wfPort p)

instance (c : JoinCmd) : Decidable (wfJoin c) := by
  unfold wfJoin
  infer_instance

/-- Well-formedness of a `ConfigCmd`, as for `wfJoin`. -/
def wfConfig (c : ConfigCmd) : Prop :=
  c.Name.length < 2 ^ 64 ∧ c.InPorts.length < 2 ^ 63 ∧
    c.OutPorts.length < 2 ^ 63 ∧
    (∀ p ∈ c.InPorts, wfPort p) ∧ (∀ p ∈ c.OutPorts, wfPort p)

instance (c : ConfigCmd) : Decidable (wfConfig c) := by
  unfold wfConfig
  infer_instance

/-- Well-formedness of a `StatusCmd`: the name fits the u64 length prefix
and the state fits one byte. -/
def wfStatus (c : StatusCmd) : Prop :=
  c.Name.length < 2 ^ 64 ∧ c.Status < 256

instance (c : StatusCmd) : Decidable (wfStatus c) := by
  unfold wfStatus
  infer_instance

/-- The wire unit, modelled from the spec (section 3): a typed,
path-tagged, length-prefixed payload.  The Go fields are Type, Path and
Body; the type tag is one byte. -/
structure Frame where
  Typ : Nat
  Path : List Nat
  Body : List Nat
  deriving DecidableEq

/-- Modelled from the spec: frame type tags, in declaration order
Unknown, Cmd, Data, OK, Err, EOF. -/
def FrameUnknown : Nat := 0

/-- Frame type tag of command frames. -/
def FrameCmd : Nat := 1

/-- Frame type tag of data frames. -/
def FrameData : Nat := 2

/-- Frame type tag of OK reply frames. -/
def FrameOK : Nat := 3

/-- Frame type tag of error reply frames. -/
def FrameErr : Nat := 4

/-- Frame type tag of end-of-stream frames. -/
def FrameEOF : Nat := 5

/-- Modelled from the spec (section 4.1): the frame writer emits a u64
length computed over the `type + path_len + path + body` bytes, then the
one type byte, the u32 path length, the path and the body.  All integers
are little-endian. -/
def sendFrame (ftype : Nat) (path body : List Nat) : List Nat :=
  let payload := ftype % 256 :: (toLE 4 path.length ++ (path ++ body))
  WriteU64 payload.length ++ payload

/-- Modelled from the spec (section 4.1): parse the payload of one frame
(the bytes after the u64 length prefix): one type byte, a u32 path
length, the path, and the rest as body.  Short payloads surface an
unexpected-EOF error. -/
def parseFrame (payload : List Nat) : GoResult Frame :=
  match payload with
  | [] => GoResult.err "unexpected EOF"
  | t :: rest =>
      if 4 ≤ rest.length then
        let plen := fromLE (rest.take 4)
        let rest2 := rest.drop 4
        if plen ≤ rest2.length then
          GoResult.ok (Frame.mk t (rest2.take plen) (rest2.drop plen))
        else GoResult.err "unexpected EOF"
      else GoResult.err "unexpected EOF"

/-- Modelled from the spec (section 4.1): the frame reader first pulls
the u64 length, then reads exactly that many bytes and parses them in
one shot; short reads surface an unexpected-EOF error.  The unread rest
of the input stream is returned alongside the frame. -/
def RecvFrame (stream : List Nat) : GoResult (Frame × List Nat) :=
  if 8 ≤ stream.length then
    let n := fromLE (stream.take 8)
    let rest := stream.drop 8
    if n ≤ rest.length then
      match parseFrame (rest.take n) with
      | GoResult.ok f => GoResult.ok (f, rest.drop n)
      | GoResult.err e => GoResult.err e
      | GoResult.crash m => GoResult.crash m
    else GoResult.err "unexpected EOF"
  else GoResult.err "unexpected EOF"

/-- Canonical command paths, translated from the source table `cmdNames`.
Each path is the ASCII byte string of the slash-prefixed name. -/
def cmdNames : List (List Nat) :=
  [[47, 117, 110, 107, 110, 111, 119, 110],      -- "/unknown"
   [47, 106, 111, 105, 110],                     -- "/join"
   [47, 99, 111, 110, 110, 101, 99, 116],        -- "/connect"
   [47, 99, 111, 110, 102, 105, 103],            -- "/config"
   [47, 105, 110, 105, 116],                     -- "/init"
   [47, 114, 101, 115, 101, 116],                -- "/reset"
   [47, 115, 116, 97, 114, 116],                 -- "/start"
   [47, 115, 116, 111, 112],                     -- "/stop"
   [47, 116, 101, 114, 109],                     -- "/term"
   [47, 115, 116, 97, 116, 117, 115],            -- "/status"
   [47, 108, 111, 103]]                          -- "/log"

/-- Translated from the source: `cmdTypeToPath` indexes the Go array
`cmdNames` with the command type.  Indexing a Go array out of range does
not return an error: it panics with the runtime message
`index out of range [i] with length 11`, modelled by the `crash`
outcome. -/
def cmdTypeToPath (cmd : Nat) : GoResult (List Nat) :=
  match cmdNames[cmd]? with
  | some p => GoResult.ok p
  | none =>
      GoResult.crash ("runtime error: index out of range [" ++
        Nat.repr cmd ++ "] with length 11")

/-- A raw command, translated from the source: a command type byte and
the command body. -/
structure Cmd where
  Typ : Nat
  Body : List Nat
  deriving DecidableEq

/-- Translated from the source: `CmdFrom` rejects frames whose type is
not `FrameCmd` with an error, and otherwise builds a `Cmd` from
`frame.Body[0]` and `frame.Body[1:]`.  The body is indexed without a
length check: on an empty body, `frame.Body[0]` panics with an
index-out-of-range runtime error, modelled by the `crash` outcome. -/
def CmdFrom (frame : Frame) : GoResult Cmd :=
  if frame.Typ ≠ FrameCmd then
    GoResult.err "invalid frame type"
  else
    match frame.Body with
    | [] => GoResult.crash "runtime error: index out of range [0] with length 0"
    | b :: bs => GoResult.ok (Cmd.mk b bs)

/-- Translated from the source: `Cmd.cmd` dispatches on the command
type.  The `CmdJoin` case slices the body once more (`raw.Body[1:]`,
which panics when the body is empty) and unmarshals a `JoinCmd`; every
other defined command type from `CmdConnect` (2) through `CmdLog` (10)
panics with the literal message `not implemented`; the default case
(`CmdUnknown` and values above 10) returns an error.  Only the `CmdJoin`
branch can produce a decoded command, so the result type is the decoded
`JoinCmd`. -/
def Cmd.cmd (raw : Cmd) : GoResult JoinCmd :=
  match raw.Typ with
  | 1 =>
      match raw.Body with
      | [] => GoResult.crash "runtime error: slice bounds out of range"
      | _ :: rest => JoinCmd.UnmarshalTDAQ rest
  | 2 => GoResult.crash "not implemented"
  | 3 => GoResult.crash "not implemented"
  | 4 => GoResult.crash "not implemented"
  | 5 => GoResult.crash "not implemented"
  | 6 => GoResult.crash "not implemented"
  | 7 => GoResult.crash "not implemented"
  | 8 => GoResult.crash "not implemented"
  | 9 => GoResult.crash "not implemented"
  | 10 => GoResult.crash "not implemented"
  | _ => GoResult.err "invalid cmd type"

/-- A value of the Go `Cmder` interface: one of the command variants
implemented in the repository (the `JoinCmd` and `ConfigCmd` of the
source plus the spec-modelled `StatusCmd`), each providing `CmdType` and
`MarshalTDAQ`. -/
inductive TCmd where
  | join (c : JoinCmd)
  | config (c : ConfigCmd)
  | status (c : StatusCmd)
  deriving DecidableEq

/-- Translated from the source `CmdType` methods: `JoinCmd` is command
type 1 (`CmdJoin`), `ConfigCmd` is 3 (`CmdConfig`), and, modelled from
the spec ordering, `StatusCmd` is 9 (`CmdStatus`). -/
def TCmd.CmdType : TCmd → Nat
  | TCmd.join _ => 1
  | TCmd.config _ => 3
  | TCmd.status _ => 9

/-- Dispatch of `MarshalTDAQ` through the `Cmder` interface. -/
def TCmd.MarshalTDAQ : TCmd → List Nat
  | TCmd.join c => c.MarshalTDAQ
  | TCmd.config c => c.MarshalTDAQ
  | TCmd.status c => c.MarshalTDAQ

/-- Translated from the source: `SendCmd` marshals the command, looks up
the canonical path of its command type, and sends one `FrameCmd` frame
whose body is the command-type byte followed by the marshalled bytes.
Marshalling into an in-memory buffer cannot fail, so the only non-`ok`
outcome is the panic propagated from `cmdTypeToPath`. -/
def SendCmd (cmd : TCmd) : GoResult (List Nat) :=
  match cmdTypeToPath cmd.CmdType with
  | GoResult.ok path =>
      GoResult.ok (sendFrame FrameCmd path (cmd.CmdType :: cmd.MarshalTDAQ))
  | GoResult.err e => GoResult.err e
  | GoResult.crash m => GoResult.crash m

/-- Translated from the source: `recvCmd` reads one frame, rejects a
frame whose type is not `FrameCmd` with an error, and otherwise returns
the `Cmd` made of `frame.Body[0]` and `frame.Body[1:]` (which panics
when the body is empty), together with the unread rest of the stream. -/
def recvCmd (stream : List Nat) : GoResult (Cmd × List Nat) :=
  match RecvFrame stream with
  | GoResult.err e => GoResult.err ("could not receive TDAQ cmd: " ++ e)
  | GoResult.crash m => GoResult.crash m
  | GoResult.ok (frame, rest) =>
      if frame.Typ ≠ FrameCmd then
        GoResult.err "did not receive a TDAQ cmd"
      else
        match frame.Body with
        | [] => GoResult.crash "runtime error: index out of range [0] with length 0"
        | b :: bs => GoResult.ok (Cmd.mk b bs, rest)

/-- Translated from the source: `newConfigCmd` builds a `Cmd` with
`CmdFrom`, rejects command types other than `CmdConfig` (3), and
unmarshals the `ConfigCmd` from `raw.Body` (the body after the leading
command-type byte). -/
def newConfigCmd (frame : Frame) : GoResult ConfigCmd :=
  match CmdFrom frame with
  | GoResult.err e => GoResult.err ("not a /config cmd: " ++ e)
  | GoResult.crash m => GoResult.crash m
  | GoResult.ok raw =>
      if raw.Typ ≠ 3 then GoResult.err "not a /config cmd"
      else ConfigCmd.UnmarshalTDAQ raw.Body

/-- Canonical path of each implemented command variant, spelled out for
the statements below: `/join`, `/config` and `/status` as ASCII bytes. -/
def TCmd.Path : TCmd → List Nat
  | TCmd.join _ => [47, 106, 111, 105, 110]
  | TCmd.config _ => [47, 99, 111, 110, 102, 105, 103]
  | TCmd.status _ => [47, 115, 116, 97, 116, 117, 115]

/-- The control-plane pipeline a `/join` command goes through on the
receiving side: `SendCmd` producing the wire bytes, `recvCmd` stripping
the leading command-type byte, then the dispatch helper `Cmd.cmd`
decoding the command. -/
def pipelineJoinDispatch (c : JoinCmd) : GoResult JoinCmd :=
  match SendCmd (TCmd.join c) with
  | GoResult.ok bs =>
      match recvCmd bs with
      | GoResult.ok (raw, _) => Cmd.cmd raw
      | GoResult.err e => GoResult.err e
      | GoResult.crash m => GoResult.crash m
  | GoResult.err e => GoResult.err e
  | GoResult.crash m => GoResult.crash m

/-- The pipeline a `/config` command goes through on the receiving side:
`SendCmd` producing the wire bytes, `RecvFrame` reading the frame, then
`newConfigCmd` decoding the command from the frame. -/
def pipelineNewConfig (c : ConfigCmd) : GoResult ConfigCmd :=
  match SendCmd (TCmd.config c) with
  | GoResult.ok bs =>
      match RecvFrame bs with
      | GoResult.ok (fr, _) => newConfigCmd fr
      | GoResult.err e => GoResult.err e
      | GoResult.crash m => GoResult.crash m
  | GoResult.err e => GoResult.err e
  | GoResult.crash m => GoResult.crash m

/-- The `JoinCmd` test vector of the specification (section 8, scenario
5): name `n1`, two input end-points and three output end-points, all
fields as ASCII bytes. -/
def c1TestJoin : JoinCmd :=
  JoinCmd.mk [110, 49]
    [Port.mk [110, 49, 49] [97, 100, 100, 114, 49, 49] [116, 121, 112, 101, 49, 49],
     Port.mk [110, 49, 50] [97, 100, 100, 114, 49, 50] [116, 121, 112, 101, 49, 50]]
    [Port.mk [110, 49, 49] [97, 100, 100, 114, 49, 49] [116, 121, 112, 101, 49, 49],
     Port.mk [110, 49, 50] [97, 100, 100, 114, 49, 50] [116, 121, 112, 101, 49, 50],
     Port.mk [110, 49, 51] [97, 100, 100, 114, 49, 51] [116, 121, 112, 101, 49, 51]]

/-- A `ConfigCmd` with the same field values as `c1TestJoin`. -/
def c1TestConfig : ConfigCmd :=
  ConfigCmd.mk [110, 49]
    [Port.mk [110, 49, 49] [97, 100, 100, 114, 49, 49] [116, 121, 112, 101, 49, 49],
     Port.mk [110, 49, 50] [97, 100, 100, 114, 49, 50] [116, 121, 112, 101, 49, 50]]
    [Port.mk [110, 49, 49] [97, 100, 100, 114, 49, 49] [116, 121, 112, 101, 49, 49],
     Port.mk [110, 49, 50] [97, 100, 100, 114, 49, 50] [116, 121, 112, 101, 49, 50],
     Port.mk [110, 49, 51] [97, 100, 100, 114, 49, 51] [116, 121, 112, 101, 49, 51]]

/-- A `StatusCmd` test vector: name `n1`, FSM state 1 (`Conf`). -/
def c1TestStatus : StatusCmd := StatusCmd.mk [110, 49] 1

@[simp] theorem length_toLE (k n : Nat) : (toLE k n).length = k := by
  induction k generalizing n with
  | zero => rfl
  | succ k ih => simp [toLE, ih]

theorem fromLE_toLE (k n : Nat) : fromLE (toLE k n) = n % 256 ^ k := by
  induction k generalizing n with
  | zero => simp [toLE, fromLE, Nat.mod_one]
  | succ k ih =>
      rw [toLE, fromLE, ih, Nat.pow_succ, Nat.mul_comm (256 ^ k) 256,
        Nat.mod_mul]

theorem fromLE_toLE_of_lt {k n : Nat} (h : n < 256 ^ k) :
    fromLE (toLE k n) = n := by
  rw [fromLE_toLE, Nat.mod_eq_of_lt h]

theorem take_len_append {α : Type} (xs ys : List α) :
    (xs ++ ys).take xs.length = xs := by
  induction xs with
  | nil => simp
  | cons a xs ih => simp [ih]

theorem drop_len_append {α : Type} (xs ys : List α) :
    (xs ++ ys).drop xs.length = ys := by
  induction xs with
  | nil => simp
  | cons a xs ih => simp [ih]

theorem ReadU64_WriteU64 (n : Nat) (rest : List Nat) (h : n < 2 ^ 64) :
    Decoder.ReadU64 (Decoder.mk (WriteU64 n ++ rest) none) =
      (n, Decoder.mk rest none) := by
  have h8 : 8 ≤ (WriteU64 n ++ rest).length := by
    simp [WriteU64, List.length_append]
  have h256 : n < 256 ^ 8 := by
    have : (256 : Nat) ^ 8 = 2 ^ 64 := by norm_num
    omega
  have htake : (WriteU64 n ++ rest).take 8 = WriteU64 n := by
    have h := take_len_append (WriteU64 n) rest
    rwa [show (WriteU64 n).length = 8 by simp [WriteU64]] at h
  have hdrop : (WriteU64 n ++ rest).drop 8 = rest := by
    have h := drop_len_append (WriteU64 n) rest
    rwa [show (WriteU64 n).length = 8 by simp [WriteU64]] at h
  simp [Decoder.ReadU64, h8, htake, hdrop, WriteU64, fromLE_toLE_of_lt h256]

theorem ReadU8_WriteU8 (n : Nat) (rest : List Nat) (h : n < 256) :
    Decoder.ReadU8 (Decoder.mk (WriteU8 n ++ rest) none) =
      (n, Decoder.mk rest none) := by
  simp [Decoder.ReadU8, WriteU8, Nat.mod_eq_of_lt h]

theorem ReadStr_WriteStr (s : List Nat) (rest : List Nat)
    (h : s.length < 2 ^ 64) :
    Decoder.ReadStr (Decoder.mk (WriteStr s ++ rest) none) =
      (s, Decoder.mk rest none) := by
  have h1 : WriteStr s ++ rest = WriteU64 s.length ++ (s ++ rest) := by
    simp [WriteStr, List.append_assoc]
  rw [Decoder.ReadStr, h1, ReadU64_WriteU64 s.length (s ++ rest) h]
  simp [take_len_append, drop_len_append, Nat.le_add_right]

theorem readPorts_portsBytes (ps : List Port) (rest : List Nat)
    (h : ∀ p ∈ ps, wfPort p) :
    readPorts ps.length (Decoder.mk (portsBytes ps ++ rest) none) =
      (ps, Decoder.mk rest none) := by
  induction ps generalizing rest with
  | nil => simp [readPorts, portsBytes]
  | cons p ps ih =>
      obtain ⟨hn, ha, ht⟩ := h p (by simp)
      have hps : ∀ q ∈ ps, wfPort q := fun q hq => h q (by simp [hq])
      have hshape : portsBytes (p :: ps) ++ rest =
          WriteStr p.Name ++ (WriteStr p.Addr ++ (WriteStr p.Typ ++
            (portsBytes ps ++ rest))) := by
        simp [portsBytes, marshalPort, List.append_assoc]
      rw [List.length_cons, hshape]
      simp only [readPorts, ReadStr_WriteStr p.Name _ hn,
        ReadStr_WriteStr p.Addr _ ha, ReadStr_WriteStr p.Typ _ ht,
        ih rest hps]

theorem readPorts_portsBytes_nil (ps : List Port)
    (h : ∀ p ∈ ps, wfPort p) :
    readPorts ps.length (Decoder.mk (portsBytes ps) none) =
      (ps, Decoder.mk [] none) := by
  have h2 := readPorts_portsBytes ps [] h
  simpa using h2

theorem joinCmd_unmarshal_marshal (c : JoinCmd) (h : wfJoin c) :
    JoinCmd.UnmarshalTDAQ (JoinCmd.MarshalTDAQ c) = GoResult.ok c := by
  obtain ⟨hn, hi, ho, hpi, hpo⟩ := h
  have hi64 : c.InPorts.length < 2 ^ 64 := by omega
  have ho64 : c.OutPorts.length < 2 ^ 64 := by omega
  have hiNeg : ¬ 2 ^ 63 ≤ c.InPorts.length := by omega
  have hoNeg : ¬ 2 ^ 63 ≤ c.OutPorts.length := by omega
  simp only [JoinCmd.UnmarshalTDAQ, JoinCmd.MarshalTDAQ,
    ReadStr_WriteStr c.Name _ hn, ReadU64_WriteU64 c.InPorts.length _ hi64,
    if_neg hiNeg, if_neg hoNeg, readPorts_portsBytes c.InPorts _ hpi,
    ReadU64_WriteU64 c.OutPorts.length _ ho64,
    readPorts_portsBytes_nil c.OutPorts hpo]

theorem configCmd_unmarshal_marshal (c : ConfigCmd) (h : wfConfig c) :
    ConfigCmd.UnmarshalTDAQ (ConfigCmd.MarshalTDAQ c) = GoResult.ok c := by
  obtain ⟨hn, hi, ho, hpi, hpo⟩ := h
  have hi64 : c.InPorts.length < 2 ^ 64 := by omega
  have ho64 : c.OutPorts.length < 2 ^ 64 := by omega
  have hiNeg : ¬ 2 ^ 63 ≤ c.InPorts.length := by omega
  have hoNeg : ¬ 2 ^ 63 ≤ c.OutPorts.length := by omega
  simp only [ConfigCmd.UnmarshalTDAQ, ConfigCmd.MarshalTDAQ,
    ReadStr_WriteStr c.Name _ hn, ReadU64_WriteU64 c.InPorts.length _ hi64,
    if_neg hiNeg, if_neg hoNeg, readPorts_portsBytes c.InPorts _ hpi,
    ReadU64_WriteU64 c.OutPorts.length _ ho64,
    readPorts_portsBytes_nil c.OutPorts hpo]

theorem ReadU8_WriteU8_nil (n : Nat) (h : n < 256) :
    Decoder.ReadU8 (Decoder.mk (WriteU8 n) none) =
      (n, Decoder.mk [] none) := by
  have h2 := ReadU8_WriteU8 n [] h
  simpa using h2

theorem statusCmd_unmarshal_marshal (c : StatusCmd) (h : wfStatus c) :
    StatusCmd.UnmarshalTDAQ (StatusCmd.MarshalTDAQ c) = GoResult.ok c := by
  obtain ⟨hn, hs⟩ := h
  simp only [StatusCmd.MarshalTDAQ, StatusCmd.UnmarshalTDAQ,
    ReadStr_WriteStr c.Name _ hn, ReadU8_WriteU8_nil c.Status hs]

theorem RecvFrame_sendFrame (t : Nat) (path body extra : List Nat)
    (ht : t < 256) (hp : path.length < 2 ^ 32)
    (hl : 1 + 4 + path.length + body.length < 2 ^ 64) :
    RecvFrame (sendFrame t path body ++ extra) =
      GoResult.ok (Frame.mk t path body, extra) := by
  have hplen : (t % 256 :: (toLE 4 path.length ++ (path ++ body))).length =
      1 + 4 + path.length + body.length := by
    simp [List.length_cons, List.length_append]
    omega
  have hshape : sendFrame t path body ++ extra =
      WriteU64 (1 + 4 + path.length + body.length) ++
        ((t % 256 :: (toLE 4 path.length ++ (path ++ body))) ++ extra) := by
    simp only [sendFrame, List.append_assoc]
    rw [hplen]
  have hrd : Decoder.ReadU64
      (Decoder.mk (WriteU64 (1 + 4 + path.length + body.length) ++
        ((t % 256 :: (toLE 4 path.length ++ (path ++ body))) ++ extra)) none) =
      (1 + 4 + path.length + body.length,
        Decoder.mk ((t % 256 :: (toLE 4 path.length ++ (path ++ body))) ++
          extra) none) :=
    ReadU64_WriteU64 _ _ hl
  -- unpack the ReadU64 lemma into raw take/drop facts about the stream
  rw [hshape, RecvFrame]
  have hlen8 : (WriteU64 (1 + 4 + path.length + body.length) ++
      ((t % 256 :: (toLE 4 path.length ++ (path ++ body))) ++ extra)).length =
      8 + (1 + 4 + path.length + body.length + extra.length) := by
    simp [WriteU64, List.length_append]
    omega
  have htk : (WriteU64 (1 + 4 + path.length + body.length) ++
      ((t % 256 :: (toLE 4 path.length ++ (path ++ body))) ++ extra)).take 8 =
      WriteU64 (1 + 4 + path.length + body.length) := by
    have h2 := take_len_append
      (WriteU64 (1 + 4 + path.length + body.length))
      ((t % 256 :: (toLE 4 path.length ++ (path ++ body))) ++ extra)
    rwa [show (WriteU64 (1 + 4 + path.length + body.length)).length = 8 by
      simp [WriteU64]] at h2
  have hdr : (WriteU64 (1 + 4 + path.length + body.length) ++
      ((t % 256 :: (toLE 4 path.length ++ (path ++ body))) ++ extra)).drop 8 =
      (t % 256 :: (toLE 4 path.length ++ (path ++ body))) ++ extra := by
    have h2 := drop_len_append
      (WriteU64 (1 + 4 + path.length + body.length))
      ((t % 256 :: (toLE 4 path.length ++ (path ++ body))) ++ extra)
    rwa [show (WriteU64 (1 + 4 + path.length + body.length)).length = 8 by
      simp [WriteU64]] at h2
  have hval : fromLE ((WriteU64 (1 + 4 + path.length + body.length) ++
      ((t % 256 :: (toLE 4 path.length ++ (path ++ body))) ++ extra)).take 8) =
      1 + 4 + path.length + body.length := by
    rw [htk, WriteU64, fromLE_toLE_of_lt]
    have h256 : (256 : Nat) ^ 8 = 2 ^ 64 := by norm_num
    omega
  rw [if_pos (by omega), hval, hdr]
  have hpay : ((t % 256 :: (toLE 4 path.length ++ (path ++ body))) ++
      extra).take (1 + 4 + path.length + body.length) =
      t % 256 :: (toLE 4 path.length ++ (path ++ body)) := by
    have h2 := take_len_append
      (t % 256 :: (toLE 4 path.length ++ (path ++ body))) extra
    rwa [hplen] at h2
  have hleft : ((t % 256 :: (toLE 4 path.length ++ (path ++ body))) ++
      extra).drop (1 + 4 + path.length + body.length) = extra := by
    have h2 := drop_len_append
      (t % 256 :: (toLE 4 path.length ++ (path ++ body))) extra
    rwa [hplen] at h2
  rw [if_pos (by
    have h2 : ((t % 256 :: (toLE 4 path.length ++ (path ++ body))) ++
        extra).length = 1 + 4 + path.length + body.length + extra.length := by
      rw [List.length_append, hplen]
    omega), hpay, hleft]
  -- now parse the exact payload
  have hrest : toLE 4 path.length ++ (path ++ body) =
      toLE 4 path.length ++ (path ++ body) := by
    simp [List.append_assoc]
  rw [parseFrame, hrest]
  have hr4 : (toLE 4 path.length ++ (path ++ body)).length =
      4 + (path.length + body.length) := by
    simp [List.length_append]
  have htk4 : (toLE 4 path.length ++ (path ++ body)).take 4 =
      toLE 4 path.length := by
    have h2 := take_len_append (toLE 4 path.length) (path ++ body)
    rwa [length_toLE] at h2
  have hdr4 : (toLE 4 path.length ++ (path ++ body)).drop 4 =
      path ++ body := by
    have h2 := drop_len_append (toLE 4 path.length) (path ++ body)
    rwa [length_toLE] at h2
  have hval4 : fromLE ((toLE 4 path.length ++ (path ++ body)).take 4) =
      path.length := by
    rw [htk4, fromLE_toLE_of_lt]
    have h256 : (256 : Nat) ^ 4 = 2 ^ 32 := by norm_num
    omega
  simp only [hr4, hval4, hdr4, if_pos (by omega : 4 ≤ 4 + (path.length + body.length))]
  rw [if_pos (by simp [List.length_append]), take_len_append, drop_len_append,
    Nat.mod_eq_of_lt ht]

theorem RecvFrame_sendFrame_nil (t : Nat) (path body : List Nat)
    (ht : t < 256) (hp : path.length < 2 ^ 32)
    (hl : 1 + 4 + path.length + body.length < 2 ^ 64) :
    RecvFrame (sendFrame t path body) =
      GoResult.ok (Frame.mk t path body, []) := by
  have h2 := RecvFrame_sendFrame t path body [] ht hp hl
  simpa using h2

/-- C1. Command round-trip: for every command variant (`JoinCmd`,
`ConfigCmd`, `StatusCmd`, any name and any port lists), unmarshalling
the bytes produced by `MarshalTDAQ` yields the command back; and sending
the command with `SendCmd` then reading the frame back with `RecvFrame`
and unmarshalling `frame.Body[1:]` also reproduces the command.  The
well-formedness hypotheses record the Go-implicit bounds: string lengths
fit the u64 prefix, port counts fit a non-negative `int`, and the total
frame fits the u64 length prefix. -/
theorem claim1_command_roundtrip :
    (∀ c : JoinCmd, wfJoin c →
      JoinCmd.UnmarshalTDAQ (JoinCmd.MarshalTDAQ c) = GoResult.ok c ∧
      (11 + (JoinCmd.MarshalTDAQ c).length < 2 ^ 64 →
        ∃ bs fr, SendCmd (TCmd.join c) = GoResult.ok bs ∧
          RecvFrame bs = GoResult.ok (fr, []) ∧
          JoinCmd.UnmarshalTDAQ (fr.Body.drop 1) = GoResult.ok c)) ∧
    (∀ c : ConfigCmd, wfConfig c →
      ConfigCmd.UnmarshalTDAQ (ConfigCmd.MarshalTDAQ c) = GoResult.ok c ∧
      (13 + (ConfigCmd.MarshalTDAQ c).length < 2 ^ 64 →
        ∃ bs fr, SendCmd (TCmd.config c) = GoResult.ok bs ∧
          RecvFrame bs = GoResult.ok (fr, []) ∧
          ConfigCmd.UnmarshalTDAQ (fr.Body.drop 1) = GoResult.ok c)) ∧
    (∀ c : StatusCmd, wfStatus c →
      StatusCmd.UnmarshalTDAQ (StatusCmd.MarshalTDAQ c) = GoResult.ok c ∧
      (13 + (StatusCmd.MarshalTDAQ c).length < 2 ^ 64 →
        ∃ bs fr, SendCmd (TCmd.status c) = GoResult.ok bs ∧
          RecvFrame bs = GoResult.ok (fr, []) ∧
          StatusCmd.UnmarshalTDAQ (fr.Body.drop 1) = GoResult.ok c)) := by
  refine ⟨fun c hc => ⟨joinCmd_unmarshal_marshal c hc, fun hlen => ?_⟩,
    fun c hc => ⟨configCmd_unmarshal_marshal c hc, fun hlen => ?_⟩,
    fun c hc => ⟨statusCmd_unmarshal_marshal c hc, fun hlen => ?_⟩⟩
  · refine ⟨sendFrame FrameCmd [47, 106, 111, 105, 110]
      (1 :: JoinCmd.MarshalTDAQ c),
      Frame.mk FrameCmd [47, 106, 111, 105, 110]
        (1 :: JoinCmd.MarshalTDAQ c), rfl, ?_, ?_⟩
    · exact RecvFrame_sendFrame_nil FrameCmd _ _ (by norm_num [FrameCmd])
        (by norm_num) (by simp [List.length_cons]; omega)
    · simpa using joinCmd_unmarshal_marshal c hc
  · refine ⟨sendFrame FrameCmd [47, 99, 111, 110, 102, 105, 103]
      (3 :: ConfigCmd.MarshalTDAQ c),
      Frame.mk FrameCmd [47, 99, 111, 110, 102, 105, 103]
        (3 :: ConfigCmd.MarshalTDAQ c), rfl, ?_, ?_⟩
    · exact RecvFrame_sendFrame_nil FrameCmd _ _ (by norm_num [FrameCmd])
        (by norm_num) (by simp [List.length_cons]; omega)
    · simpa using configCmd_unmarshal_marshal c hc
  · refine ⟨sendFrame FrameCmd [47, 115, 116, 97, 116, 117, 115]
      (9 :: StatusCmd.MarshalTDAQ c),
      Frame.mk FrameCmd [47, 115, 116, 97, 116, 117, 115]
        (9 :: StatusCmd.MarshalTDAQ c), rfl, ?_, ?_⟩
    · exact RecvFrame_sendFrame_nil FrameCmd _ _ (by norm_num [FrameCmd])
        (by norm_num) (by simp [List.length_cons]; omega)
    · simpa using statusCmd_unmarshal_marshal c hc

/-- C1 witness: the hypotheses of `claim1_command_roundtrip` hold at the
specification's concrete test vectors and the round trips evaluate as
stated. -/
theorem claim1_command_roundtrip_witness :
    JoinCmd.UnmarshalTDAQ (JoinCmd.MarshalTDAQ c1TestJoin) =
        GoResult.ok c1TestJoin ∧
      (∃ bs fr, SendCmd (TCmd.join c1TestJoin) = GoResult.ok bs ∧
        RecvFrame bs = GoResult.ok (fr, []) ∧
        JoinCmd.UnmarshalTDAQ (fr.Body.drop 1) = GoResult.ok c1TestJoin) ∧
      ConfigCmd.UnmarshalTDAQ (ConfigCmd.MarshalTDAQ c1TestConfig) =
        GoResult.ok c1TestConfig ∧
      StatusCmd.UnmarshalTDAQ (StatusCmd.MarshalTDAQ c1TestStatus) =
        GoResult.ok c1TestStatus := by
  have hj := claim1_command_roundtrip.1 c1TestJoin (by decide)
  have hc := claim1_command_roundtrip.2.1 c1TestConfig (by decide)
  have hs := claim1_command_roundtrip.2.2 c1TestStatus (by decide)
  exact ⟨hj.1, hj.2 (by decide), hc.1, hs.1⟩

/-- C2. Frame round-trip: for every well-formed frame (path length fits
the u32 prefix, total encoded length fits the u64 prefix, type fits one
byte), decoding the bytes written by the frame writer returns the frame
byte-for-byte in Type, Path and Body; and the writer emits a u64 length
computed over the type + path_len + path + body bytes. -/
theorem claim2_frame_roundtrip (f : Frame) (ht : f.Typ < 256)
    (hp : f.Path.length < 2 ^ 32)
    (hl : 1 + 4 + f.Path.length + f.Body.length < 2 ^ 64) :
    sendFrame f.Typ f.Path f.Body =
      WriteU64 ((f.Typ :: (toLE 4 f.Path.length ++ (f.Path ++ f.Body))).length)
        ++ (f.Typ :: (toLE 4 f.Path.length ++ (f.Path ++ f.Body))) ∧
    RecvFrame (sendFrame f.Typ f.Path f.Body) = GoResult.ok (f, []) := by
  constructor
  · simp [sendFrame, Nat.mod_eq_of_lt ht]
  · have h2 := RecvFrame_sendFrame_nil f.Typ f.Path f.Body ht hp hl
    simpa using h2

/-- C2 witness: the hypotheses of `claim2_frame_roundtrip` hold at a
concrete data frame and the round trip evaluates as stated. -/
theorem claim2_frame_roundtrip_witness :
    RecvFrame (sendFrame 2 [47, 97, 100, 99] [9, 8, 7]) =
      GoResult.ok (Frame.mk 2 [47, 97, 100, 99] [9, 8, 7], []) :=
  (claim2_frame_roundtrip (Frame.mk 2 [47, 97, 100, 99] [9, 8, 7])
    (by decide) (by decide) (by decide)).2

/-- C3. For every command whose marshalling succeeds (which is every
command), `SendCmd` writes exactly one `FrameCmd` frame whose path is
the canonical command path of `CmdType()` and whose body is the single
command-type byte followed by exactly the marshalled bytes; reading the
written byte stream back yields that one frame and an empty remainder.
The hypothesis records that the frame fits the u64 length prefix, which
always holds in Go. -/
theorem claim3_sendCmd_frame (c : TCmd)
    (h : 6 + c.Path.length + c.MarshalTDAQ.length < 2 ^ 64) :
    cmdTypeToPath c.CmdType = GoResult.ok c.Path ∧
    SendCmd c =
      GoResult.ok (sendFrame FrameCmd c.Path (c.CmdType :: c.MarshalTDAQ)) ∧
    RecvFrame (sendFrame FrameCmd c.Path (c.CmdType :: c.MarshalTDAQ)) =
      GoResult.ok (Frame.mk FrameCmd c.Path (c.CmdType :: c.MarshalTDAQ),
        []) := by
  cases c with
  | join cj =>
      refine ⟨rfl, rfl, ?_⟩
      exact RecvFrame_sendFrame_nil FrameCmd _ _ (by norm_num [FrameCmd])
        (by norm_num [TCmd.Path])
        (by simp only [TCmd.Path, TCmd.MarshalTDAQ, List.length_cons,
              List.length_nil] at h ⊢
            omega)
  | config cc =>
      refine ⟨rfl, rfl, ?_⟩
      exact RecvFrame_sendFrame_nil FrameCmd _ _ (by norm_num [FrameCmd])
        (by norm_num [TCmd.Path])
        (by simp only [TCmd.Path, TCmd.MarshalTDAQ, List.length_cons,
              List.length_nil] at h ⊢
            omega)
  | status cs =>
      refine ⟨rfl, rfl, ?_⟩
      exact RecvFrame_sendFrame_nil FrameCmd _ _ (by norm_num [FrameCmd])
        (by norm_num [TCmd.Path])
        (by simp only [TCmd.Path, TCmd.MarshalTDAQ, List.length_cons,
              List.length_nil] at h ⊢
            omega)

/-- C3 witness: the hypothesis of `claim3_sendCmd_frame` holds at a
concrete status command and the frame contents evaluate as stated. -/
theorem claim3_sendCmd_frame_witness :
    SendCmd (TCmd.status (StatusCmd.mk [110, 49] 1)) =
      GoResult.ok (sendFrame FrameCmd [47, 115, 116, 97, 116, 117, 115]
        (9 :: (StatusCmd.mk [110, 49] 1).MarshalTDAQ)) :=
  (claim3_sendCmd_frame (TCmd.status (StatusCmd.mk [110, 49] 1))
    (by decide)).2.1

/-- C4 counterexample: the claim says that when the frame type is
`FrameCmd`, `CmdFrom` returns `Cmd{Body[0], Body[1:]}` (and that errors
happen exactly on a wrong frame type).  At the concrete `FrameCmd` frame
with an empty body, `CmdFrom` neither succeeds nor returns an error: it
panics on the body indexing, so the "otherwise returns" part of the
claim is false at this input. -/
theorem claim4_counterexample :
    (CmdFrom (Frame.mk FrameCmd [] [])).isOk = false ∧
    (CmdFrom (Frame.mk FrameCmd [] [])).isErr = false ∧
    CmdFrom (Frame.mk FrameCmd [] []) =
      GoResult.crash "runtime error: index out of range [0] with length 0" :=
  ⟨rfl, rfl, rfl⟩

/-- C4 (amended).  `recvCmd` reads exactly one frame and returns an
error if and only if reading the frame fails or the frame's type is not
`FrameCmd`; when it succeeds it returns `Cmd{Body[0], Body[1:]}` and the
unread rest of the stream.  `CmdFrom` returns an error exactly when the
frame type is not `FrameCmd`; otherwise, provided the body is non-empty,
it returns `Cmd{Body[0], Body[1:]}` — with an empty body it panics on
the indexing instead of returning a value. -/
theorem claim4_recvCmd_CmdFrom :
    (∀ fr : Frame, ((CmdFrom fr).isErr = true ↔ fr.Typ ≠ FrameCmd)) ∧
    (∀ (fr : Frame) (b : Nat) (bs : List Nat), fr.Typ = FrameCmd →
      fr.Body = b :: bs → CmdFrom fr = GoResult.ok (Cmd.mk b bs)) ∧
    (∀ fr : Frame, fr.Typ = FrameCmd → fr.Body = [] →
      CmdFrom fr =
        GoResult.crash
          "runtime error: index out of range [0] with length 0") ∧
    (∀ (stream : List Nat) (e : String), RecvFrame stream = GoResult.err e →
      (recvCmd stream).isErr = true) ∧
    (∀ (stream : List Nat) (fr : Frame) (rest : List Nat),
      RecvFrame stream = GoResult.ok (fr, rest) → fr.Typ ≠ FrameCmd →
      (recvCmd stream).isErr = true) ∧
    (∀ (stream : List Nat) (fr : Frame) (rest : List Nat) (b : Nat)
      (bs : List Nat), RecvFrame stream = GoResult.ok (fr, rest) →
      fr.Typ = FrameCmd → fr.Body = b :: bs →
      recvCmd stream = GoResult.ok (Cmd.mk b bs, rest)) ∧
    (∀ stream : List Nat, (recvCmd stream).isErr = true →
      (RecvFrame stream).isErr = true ∨
        ∃ fr rest, RecvFrame stream = GoResult.ok (fr, rest) ∧
          fr.Typ ≠ FrameCmd) := by
  refine ⟨?_, ?_, ?_, ?_, ?_, ?_, ?_⟩
  · intro fr
    rcases fr with ⟨t, p, b⟩
    by_cases ht : t = FrameCmd
    · subst ht
      cases b <;> simp [CmdFrom, GoResult.isErr]
    · simp [CmdFrom, ht, GoResult.isErr]
  · intro fr b bs ht hb
    rcases fr with ⟨t, p, body⟩
    simp only at ht hb
    subst ht
    subst hb
    simp [CmdFrom]
  · intro fr ht hb
    rcases fr with ⟨t, p, body⟩
    simp only at ht hb
    subst ht
    subst hb
    simp [CmdFrom]
  · intro stream e h
    rw [recvCmd, h]
    rfl
  · intro stream fr rest h hne
    rw [recvCmd, h]
    simp [hne, GoResult.isErr]
  · intro stream fr rest b bs h ht hb
    rw [recvCmd, h]
    rcases fr with ⟨t, p, body⟩
    simp only at ht hb
    subst ht
    subst hb
    simp
  · intro stream h
    cases hr : RecvFrame stream with
    | err e => left; simp [hr, GoResult.isErr]
    | crash m => rw [recvCmd, hr] at h; simp [GoResult.isErr] at h
    | ok pr =>
        rcases pr with ⟨fr, rest⟩
        by_cases ht : fr.Typ = FrameCmd
        · exfalso
          rw [recvCmd, hr] at h
          simp only [ht, ne_eq, not_true_eq_false, if_false] at h
          cases hb : fr.Body with
          | nil => rw [hb] at h; simp [GoResult.isErr] at h
          | cons b bs => rw [hb] at h; simp [GoResult.isErr] at h
        · right
          exact ⟨fr, rest, rfl, ht⟩

/-- C4 witness: the hypotheses of `claim4_recvCmd_CmdFrom` hold at a
concrete command frame with a non-empty body and `CmdFrom` splits the
body as stated. -/
theorem claim4_recvCmd_CmdFrom_witness :
    CmdFrom (Frame.mk FrameCmd [47, 97] [7, 8]) =
      GoResult.ok (Cmd.mk 7 [8]) :=
  claim4_recvCmd_CmdFrom.2.1 (Frame.mk FrameCmd [47, 97] [7, 8]) 7 [8]
    rfl rfl

/-- C5: the claim says that converting an out-of-range `CmdType` to its
path panics with the literal message `invalid cmd-type 255`.  The source
indexes the `cmdNames` array directly, so the panic carries the Go
runtime's index-out-of-range message instead — the repository's own test
(`TestCmdType` in `tdaq_test.go`) and the spec demand the
`invalid cmd-type 255` message, which this code cannot produce. -/
theorem claim5_cmdTypeToPath_255 :
    cmdTypeToPath 255 =
      GoResult.crash
        "runtime error: index out of range [255] with length 11" ∧
    cmdTypeToPath 255 ≠ GoResult.crash "invalid cmd-type 255" := by
  constructor
  · rfl
  · decide

/-- C6. Over the defined range 0..10, the CmdType-to-path conversion
succeeds on every value, maps each defined CmdType to its canonical path
`/unknown /join /connect /config /init /reset /start /stop /term /status
/log` (as ASCII bytes), and is injective: no two defined CmdTypes map to
the same path. -/
theorem claim6_path_bijection :
    (List.range 11).map cmdTypeToPath =
      [GoResult.ok [47, 117, 110, 107, 110, 111, 119, 110],
       GoResult.ok [47, 106, 111, 105, 110],
       GoResult.ok [47, 99, 111, 110, 110, 101, 99, 116],
       GoResult.ok [47, 99, 111, 110, 102, 105, 103],
       GoResult.ok [47, 105, 110, 105, 116],
       GoResult.ok [47, 114, 101, 115, 101, 116],
       GoResult.ok [47, 115, 116, 97, 114, 116],
       GoResult.ok [47, 115, 116, 111, 112],
       GoResult.ok [47, 116, 101, 114, 109],
       GoResult.ok [47, 115, 116, 97, 116, 117, 115],
       GoResult.ok [47, 108, 111, 103]] ∧
    ((List.range 11).map cmdTypeToPath).Nodup := by
  constructor
  · rfl
  · decide

/-- C7. The dispatch helper `Cmd.cmd` panics with the message
`not implemented` for every command type from `CmdConnect` (2) through
`CmdLog` (10); only the `CmdJoin` (1) case decodes a command (from
`raw.Body[1:]`); and a type outside the defined range (11 and above)
makes it return an error, not a panic.  Moreover only the `CmdJoin` case
can ever return a decoded command. -/
theorem claim7_dispatch :
    (∀ (body : List Nat) (t : Nat), 2 ≤ t → t ≤ 10 →
      Cmd.cmd (Cmd.mk t body) = GoResult.crash "not implemented") ∧
    (∀ (b : Nat) (rest : List Nat),
      Cmd.cmd (Cmd.mk 1 (b :: rest)) = JoinCmd.UnmarshalTDAQ rest) ∧
    (∀ (body : List Nat) (t : Nat), 11 ≤ t →
      (Cmd.cmd (Cmd.mk t body)).isErr = true) ∧
    (∀ raw : Cmd, (Cmd.cmd raw).isOk = true → raw.Typ = 1) := by
  refine ⟨?_, ?_, ?_, ?_⟩
  · intro body t h2 h10
    interval_cases t <;> rfl
  · intro b rest
    rfl
  · intro body t h
    obtain ⟨k, rfl⟩ : ∃ k, t = k + 11 := ⟨t - 11, by omega⟩
    rfl
  · intro raw h
    rcases raw with ⟨t, body⟩
    rcases t with _ | _ | _ | _ | _ | _ | _ | _ | _ | _ | _ | t
    · simp [Cmd.cmd, GoResult.isOk] at h
    · rfl
    · simp [Cmd.cmd, GoResult.isOk] at h
    · simp [Cmd.cmd, GoResult.isOk] at h
    · simp [Cmd.cmd, GoResult.isOk] at h
    · simp [Cmd.cmd, GoResult.isOk] at h
    · simp [Cmd.cmd, GoResult.isOk] at h
    · simp [Cmd.cmd, GoResult.isOk] at h
    · simp [Cmd.cmd, GoResult.isOk] at h
    · simp [Cmd.cmd, GoResult.isOk] at h
    · simp [Cmd.cmd, GoResult.isOk] at h
    · simp [Cmd.cmd, GoResult.isOk] at h

/-- C7 witness: the hypotheses of `claim7_dispatch` hold at concrete
command types and the dispatch evaluates as stated. -/
theorem claim7_dispatch_witness :
    Cmd.cmd (Cmd.mk 5 [1, 2, 3]) = GoResult.crash "not implemented" ∧
    (Cmd.cmd (Cmd.mk 255 [1, 2, 3])).isErr = true :=
  ⟨claim7_dispatch.1 [1, 2, 3] 5 (by decide) (by decide),
    claim7_dispatch.2.2.1 [1, 2, 3] 255 (by decide)⟩

/-- C8: the claim says both command decode sites start at the offset
symmetric to their marshal, namely the body after the leading
command-type byte.  `newConfigCmd` does (third conjunct: the full
send/receive/decode pipeline reproduces a concrete `ConfigCmd`), but
`Cmd.cmd`'s `CmdJoin` branch unmarshals from `raw.Body[1:]` even though
`CmdFrom` has already stripped the command-type byte, so the same
pipeline for a concrete `JoinCmd` drops the first payload byte and fails
to decode (first two conjuncts), contradicting the claim; the spec
(section 9) and the repository's round-trip test fix the symmetric
offset as the intent. -/
theorem claim8_unmarshal_offset :
    pipelineJoinDispatch (JoinCmd.mk [97, 98] [] []) =
      GoResult.err "unexpected EOF" ∧
    (pipelineJoinDispatch (JoinCmd.mk [97, 98] [] [])).isOk = false ∧
    pipelineNewConfig (ConfigCmd.mk [97, 98] [] []) =
      GoResult.ok (ConfigCmd.mk [97, 98] [] []) := by
  refine ⟨by decide, by decide, by decide⟩

/-- C9. `JoinCmd` and `ConfigCmd` share one wire schema: for every name
and every pair of port lists the two marshallers return identical byte
sequences, and on every input the two unmarshallers produce the same
outcome with structurally identical field values. -/
theorem claim9_shared_schema :
    (∀ (nm : List Nat) (ins outs : List Port),
      JoinCmd.MarshalTDAQ (JoinCmd.mk nm ins outs) =
        ConfigCmd.MarshalTDAQ (ConfigCmd.mk nm ins outs)) ∧
    (∀ p : List Nat,
      ConfigCmd.UnmarshalTDAQ p =
        GoResult.map (fun c : JoinCmd =>
          ConfigCmd.mk c.Name c.InPorts c.OutPorts)
          (JoinCmd.UnmarshalTDAQ p)) := by
  constructor
  · intro nm ins outs
    rfl
  · intro p
    simp only [ConfigCmd.UnmarshalTDAQ, JoinCmd.UnmarshalTDAQ]
    split
    · simp [GoResult.map]
    · split
      · simp [GoResult.map]
      · split <;> simp [GoResult.map]

/-- C10. Implicit edge case: `CmdFrom` and `recvCmd` index the command
frame body without checking that it is non-empty.  For a `FrameCmd`
frame they require at least the command-type byte: with a non-empty body
`CmdFrom` succeeds on the split body, while with an empty body the
indexing panics and no error value is returned — both for `CmdFrom` on
such a frame and for `recvCmd` on the wire encoding of such a frame. -/
theorem claim10_empty_body :
    (∀ path : List Nat,
      CmdFrom (Frame.mk FrameCmd path []) =
        GoResult.crash
          "runtime error: index out of range [0] with length 0") ∧
    (∀ path : List Nat, (CmdFrom (Frame.mk FrameCmd path [])).isErr = false) ∧
    (∀ (path : List Nat) (b : Nat) (bs : List Nat),
      CmdFrom (Frame.mk FrameCmd path (b :: bs)) =
        GoResult.ok (Cmd.mk b bs)) ∧
    recvCmd (sendFrame FrameCmd [47, 106, 111, 105, 110] []) =
      GoResult.crash "runtime error: index out of range [0] with length 0" :=
  ⟨fun _ => rfl, fun _ => rfl, fun _ _ _ => rfl, by decide⟩

end Tdaq
